import Mathlib

/-!
Verification of the session/transport core of the WhatsApp-web client
library (source of record: `src/examples/pairing-code-auth.ts`, third
document: classes `WhatsApp`, `ProtocolManager`, `AuthHandler`,
`BinaryEncoder`, `BinaryDecoder`; plus `src/src/auth/QRAuth.ts` and
`PairingCodeAuth` in `src/src/messaging/MessageHandler.ts`).

The embedding is shallow: JavaScript objects holding protocol state become
Lean structures, the socket/event callbacks become explicit step functions
returning the updated state together with the emitted events, sent frames
and scheduled timers, and `Buffer`s become `List Nat` (byte lists).  All
payloads exercised here are ASCII, so `Buffer.toString()` is modelled as
mapping each byte to the character with that code point.  JSON documents
are modelled by the inductive `JVal` (numbers restricted to integers,
which covers every payload the library builds), `JSON.stringify` by
`jsonStringify` and `JSON.parse` by the executable parser `jsonParse`
(which accepts exactly the integer-numbered fragment of JSON and fails on
anything else, in particular on any input whose first non-whitespace
character cannot begin a JSON value — JSON whitespace being space, tab,
line feed and carriage return only, as in the ECMA-404 grammar used by
`JSON.parse`).
-/

namespace WaCore

/-- Connection states, from the `ConnectionState` enum of the source
(`src/unnamed/part_000` lines 37–44 and `pairing-code-auth.ts` lines
197–204).  Note that the source has no `AUTHENTICATING` member. -/
inductive ConnectionState where
  | DISCONNECTED
  | CONNECTING
  | CONNECTED
  | AUTHENTICATED
  | READY
  | TIMEOUT
deriving DecidableEq, Repr

/-- JSON values (numbers restricted to integers; every document the
library builds or consumes in the verified scenarios is of this shape). -/
inductive JVal where
  | null
  | boolean (b : Bool)
  | num (n : Int)
  | str (s : String)
  | arr (xs : List JVal)
  | obj (fields : List (String × JVal))

/-- Field lookup on a JSON value: `some v` when the value is an object
with a first field of the given name, `none` otherwise (models JavaScript
property access `o.f` yielding `undefined` on a miss or a non-object). -/
def JVal.getField : JVal → String → Option JVal
  | .obj fields, k => (fields.find? (fun p => p.1 = k)).map (·.2)
  | _, _ => none

/-- `v.isStrField k s` models the JavaScript test `v.k === s` for a string
literal `s`. -/
def JVal.isStrField (v : JVal) (k s : String) : Bool :=
  match v.getField k with
  | some (.str t) => t = s
  | _ => false

/-- `v.strFieldD k d` models `v.k || d` for a string-valued field with a
string default (JavaScript `||` also rejects the empty string, which is
falsy). -/
def JVal.strFieldD (v : JVal) (k d : String) : String :=
  match v.getField k with
  | some (.str t) => if t = "" then d else t
  | _ => d

/-! ### JSON serialization (`JSON.stringify`) -/

/-- Escape one character inside a JSON string literal, as
`JSON.stringify` does: quote, backslash and the named control characters
get two-character escapes, all other control characters a `\u00XX`
escape, everything else is copied verbatim. -/
def escapeChar (c : Char) : List Char :=
  if c = '"' then ['\\', '"']
  else if c = '\\' then ['\\', '\\']
  else if c = '\n' then ['\\', 'n']
  else if c = '\r' then ['\\', 'r']
  else if c = '\t' then ['\\', 't']
  else if c = '\x08' then ['\\', 'b']
  else if c = '\x0c' then ['\\', 'f']
  else if c.toNat < 32 then
    ['\\', 'u', '0', '0', Nat.digitChar (c.toNat / 16), Nat.digitChar (c.toNat % 16)]
  else [c]

/-- A JSON string literal with surrounding quotes. -/
def quoteStr (s : String) : String :=
  ⟨'"' :: (s.data.flatMap escapeChar) ++ ['"']⟩

mutual

/-- `JSON.stringify` on the modelled value space. -/
def jsonStringify : JVal → String
  | .null => "null"
  | .boolean true => "true"
  | .boolean false => "false"
  | .num n => toString n
  | .str s => quoteStr s
  | .arr xs => "[" ++ stringifyList xs ++ "]"
  | .obj fs => "\x7b" ++ stringifyFields fs ++ "\x7d"

def stringifyList : List JVal → String
  | [] => ""
  | [x] => jsonStringify x
  | x :: xs => jsonStringify x ++ "," ++ stringifyList xs

def stringifyFields : List (String × JVal) → String
  | [] => ""
  | [(k, v)] => quoteStr k ++ ":" ++ jsonStringify v
  | (k, v) :: fs => quoteStr k ++ ":" ++ jsonStringify v ++ "," ++ stringifyFields fs

end

/-! ### JSON parsing (`JSON.parse`)

A fuel-indexed recursive-descent parser for the integer-numbered fragment
of JSON.  It fails (`none`) on any input that is not a single well-formed
document — in particular on empty input and on an input whose first
non-whitespace character cannot begin a value, such as a NUL byte. -/

/-- JSON whitespace (ECMA-404): space, tab, line feed, carriage return. -/
def isJsonWs (c : Char) : Bool :=
  c = ' ' ∨ c = '\t' ∨ c = '\n' ∨ c = '\r'

def skipWs (cs : List Char) : List Char := cs.dropWhile isJsonWs

/-- Parse a decimal digit run (at least one digit). -/
def parseDigits (cs : List Char) : Option (Nat × List Char) :=
  let ds := cs.takeWhile Char.isDigit
  if ds.isEmpty then none
  else some (ds.foldl (fun a c => 10 * a + (c.toNat - 48)) 0, cs.drop ds.length)

/-- Parse the body of a string literal after the opening quote, handling
the two-character escapes (`\uXXXX` escapes are out of the modelled
fragment). -/
def parseStringBody (fuel : Nat) (cs : List Char) : Option (List Char × List Char) :=
  match fuel, cs with
  | 0, _ => none
  | _, [] => none
  | fuel + 1, c :: rest =>
    if c = '"' then some ([], rest)
    else if c = '\\' then
      match rest with
      | [] => none
      | e :: rest' =>
        let dec : Option Char :=
          if e = '"' then some '"'
          else if e = '\\' then some '\\'
          else if e = '/' then some '/'
          else if e = 'n' then some '\n'
          else if e = 'r' then some '\r'
          else if e = 't' then some '\t'
          else if e = 'b' then some '\x08'
          else if e = 'f' then some '\x0c'
          else none
        match dec with
        | none => none
        | some d =>
          match parseStringBody fuel rest' with
          | some (body, rem) => some (d :: body, rem)
          | none => none
    else if c.toNat < 32 then none
    else
      match parseStringBody fuel rest with
      | some (body, rem) => some (c :: body, rem)
      | none => none

mutual

/-- Parse one JSON value from the head of the input. -/
def parseValue (fuel : Nat) (cs : List Char) : Option (JVal × List Char) :=
  match fuel with
  | 0 => none
  | fuel + 1 =>
    match skipWs cs with
    | [] => none
    | c :: rest =>
      if c = 'n' then
        match rest with
        | 'u' :: 'l' :: 'l' :: rem => some (.null, rem)
        | _ => none
      else if c = 't' then
        match rest with
        | 'r' :: 'u' :: 'e' :: rem => some (.boolean true, rem)
        | _ => none
      else if c = 'f' then
        match rest with
        | 'a' :: 'l' :: 's' :: 'e' :: rem => some (.boolean false, rem)
        | _ => none
      else if c = '"' then
        match parseStringBody (rest.length + 1) rest with
        | some (body, rem) => some (.str ⟨body⟩, rem)
        | none => none
      else if c = '-' then
        match parseDigits rest with
        | some (n, rem) => some (.num (-(n : Int)), rem)
        | none => none
      else if c.isDigit then
        match parseDigits (c :: rest) with
        | some (n, rem) => some (.num (n : Int), rem)
        | none => none
      else if c = '[' then
        match skipWs rest with
        | ']' :: rem => some (.arr [], rem)
        | _ =>
          match parseElems fuel rest with
          | some (xs, rem) => some (.arr xs, rem)
          | none => none
      else if c = '{' then
        match skipWs rest with
        | '}' :: rem => some (.obj [], rem)
        | _ =>
          match parseMembers fuel rest with
          | some (fs, rem) => some (.obj fs, rem)
          | none => none
      else none

/-- Parse a non-empty comma-separated list of array elements plus the
closing bracket. -/
def parseElems (fuel : Nat) (cs : List Char) : Option (List JVal × List Char) :=
  match fuel with
  | 0 => none
  | fuel + 1 =>
    match parseValue fuel cs with
    | none => none
    | some (v, rem) =>
      match skipWs rem with
      | ',' :: rem' =>
        match parseElems fuel rem' with
        | some (vs, rem'') => some (v :: vs, rem'')
        | none => none
      | ']' :: rem' => some ([v], rem')
      | _ => none

/-- Parse a non-empty comma-separated list of object members plus the
closing brace. -/
def parseMembers (fuel : Nat) (cs : List Char) : Option (List (String × JVal) × List Char) :=
  match fuel with
  | 0 => none
  | fuel + 1 =>
    match skipWs cs with
    | '"' :: rest =>
      match parseStringBody (rest.length + 1) rest with
      | none => none
      | some (key, rem) =>
        match skipWs rem with
        | ':' :: rem' =>
          match parseValue fuel rem' with
          | none => none
          | some (v, rem'') =>
            match skipWs rem'' with
            | ',' :: rem''' =>
              match parseMembers fuel rem''' with
              | some (fs, rem4) => some ((⟨key⟩, v) :: fs, rem4)
              | none => none
            | '}' :: rem''' => some ([(⟨key⟩, v)], rem''')
            | _ => none
        | _ => none
    | _ => none

end

/-- `JSON.parse`: a single document followed only by whitespace. -/
def jsonParse (cs : List Char) : Option JVal :=
  match parseValue (cs.length + 1) cs with
  | some (v, rem) => if (skipWs rem).isEmpty then some v else none
  | none => none

/-! ### Bytes and strings -/

/-- `Buffer.toString()` for the ASCII payloads exercised here: each byte
becomes the character with that code point. -/
def bytesToChars (bs : List Nat) : List Char := bs.map Char.ofNat

/-- `Buffer.from(string)` for ASCII strings. -/
def strToBytes (s : String) : List Nat := s.data.map Char.toNat

/-! ### Wire-frame constants and the frame codec
(`pairing-code-auth.ts` lines 174–176, 785–820, 936–957, 2384–2410) -/

/-- `WA_MAGIC = Buffer.from([0x57, 0x41])`. -/
def WA_MAGIC : List Nat := [0x57, 0x41]

/-- `WA_PREFIX_INFO = Buffer.from([6, 0, 0, 0])` (structured kind). -/
def WA_PREFIX_INFO : List Nat := [6, 0, 0, 0]

/-- `WA_PREFIX_BINARY = Buffer.from([6, 1, 0, 0])` (tagged-binary kind). -/
def WA_PREFIX_BINARY : List Nat := [6, 1, 0, 0]

/-- `BinaryEncoder.encode` (lines 2384–2389): the placeholder encoder is
`Buffer.from(JSON.stringify(node))`. -/
def binaryEncode (node : JVal) : List Nat := strToBytes (jsonStringify node)

/-- `BinaryDecoder.decode` (lines 2401–2410): `JSON.parse` of the bytes,
with the catch-all fallback `{data: buffer}` modelled as `none`. -/
def binaryDecode (bs : List Nat) : Option JVal := jsonParse (bytesToChars bs)

/-- Observable outcome of `ProtocolManager.processMessage` on one inbound
buffer (lines 785–820):
* `malformed`   — the guard `buffer.length < 4 || buffer[0] !== WA_MAGIC[0]
  || buffer[1] !== WA_MAGIC[1]` fired: the method logs
  "Received invalid message format" and returns;
* `jsonDispatch j` — the structured branch parsed `buffer.slice(4)` as JSON
  document `j` and passed it to `_processJsonMessage`;
* `jsonError`   — the structured branch was taken but `JSON.parse` threw;
  the error is caught and logged;
* `binaryDispatch d` — the tagged-binary branch decoded the payload and
  passed it to `_processBinaryMessage` (`d = none` stands for the decoder's
  `{data: buffer}` fallback);
* `unknownKind b` — neither kind matched byte `b`. -/
inductive ProcResult where
  | malformed
  | jsonDispatch (j : JVal)
  | jsonError
  | binaryDispatch (d : Option JVal)
  | unknownKind (b : Nat)

/-- `ProtocolManager.processMessage` (lines 785–820), translated
clause-for-clause.  Note the two details taken verbatim from the source:
the kind is read from `buffer[2]` (which equals `6` for *both* prefixes)
and the payload is taken as `buffer.slice(4)`. -/
def processMessage (bs : List Nat) : ProcResult :=
  if bs.length < 4 ∨ bs.getD 0 0 ≠ 0x57 ∨ bs.getD 1 0 ≠ 0x41 then
    .malformed
  else
    let messageType := bs.getD 2 0
    let messageData := bs.drop 4
    if messageType = WA_PREFIX_INFO.getD 0 0 then
      match jsonParse (bytesToChars messageData) with
      | some j => .jsonDispatch j
      | none => .jsonError
    else if messageType = WA_PREFIX_BINARY.getD 0 0 then
      .binaryDispatch (binaryDecode messageData)
    else
      .unknownKind messageType

/-- The frame built by `ProtocolManager.sendJSON` (lines 936–957):
`Buffer.concat([WA_MAGIC, WA_PREFIX_INFO, Buffer.from(JSON.stringify(data))])`. -/
def sendJSONFrame (data : JVal) : List Nat :=
  WA_MAGIC ++ WA_PREFIX_INFO ++ strToBytes (jsonStringify data)

/-- The frame built by `ProtocolManager.sendBinary` (lines 965–978):
`Buffer.concat([WA_MAGIC, WA_PREFIX_BINARY, encoded])`. -/
def sendBinaryFrame (node : JVal) : List Nat :=
  WA_MAGIC ++ WA_PREFIX_BINARY ++ binaryEncode node

/-! ### The client state machine
(`WhatsApp` class, `pairing-code-auth.ts` lines 228–763, together with the
auth handlers it owns). -/

/-- Recognized configuration options with their defaults
(constructor, lines 237–247). -/
structure Options where
  maxReconnects : Nat := 5
  reconnectDelay : ℚ := 3000
  autoReconnect : Bool := true
  qrMaxRetries : Nat := 3
  qrTimeout : ℚ := 60000
deriving Repr

/-- Key material generated by `AuthHandler.generateKeys` (lines
1116–1129): a private scalar and a public point.  The source never sets
`encKey`/`macKey` on this object, so reading them yields `undefined`,
modelled by the `Option` fields that `generateKeys` leaves at `none`. -/
structure Keys where
  priv : List Nat
  pub : List Nat
  encKey : Option (List Nat) := none
  macKey : Option (List Nat) := none
deriving Repr, DecidableEq

/-- The identity record stored in `session.me` / `this.user`
(fields taken from the handshake-success message; a missing field is
`undefined`, hence `Option`). -/
structure UserRec where
  id : Option String
  name : Option String
  phone : Option String
deriving Repr, DecidableEq

/-- The session record built by `handleAuthSuccess` (lines 1210–1221). -/
structure SessionRec where
  clientId : Option String
  serverToken : Option String
  clientToken : Option String
  encKey : Option (List Nat)
  macKey : Option (List Nat)
  me : UserRec
deriving Repr, DecidableEq

/-- Events emitted through the client's event surface.  `qrCodeReceived`
abbreviates the visual-code handler invocation (rendering is out of
scope); `pairingCodeErrorExn` is the `emit('pairing_code_error', error)`
of the catch block in `requestPairingCode`, as opposed to
`pairingCodeError reason` from `handlePairingCodeResponse`. -/
inductive Event where
  | stateChange (src dst : ConnectionState)
  | connectedEv
  | disconnectedEv
  | connectionSuccess
  | connectingStatus
  | connectionTimeout
  | qrCodeReceived (ref : Option JVal)
  | authenticatedEv
  | readyEv
  | reconnectFailed
  | pairingCodeRequest (phone : String)
  | pairingCode (code : Option JVal)
  | pairingCodeError (reason : String)
  | pairingCodeErrorExn
  | unknownMessage

/-- Outbound frames produced by a step: either the JSON of a `sendJSON`
call or the logout action node of `sendLogout`. -/
inductive SendMsg where
  | jsonMsg (j : JVal)
  | logoutMsg

/-- The observable output of one step: emitted events, sent frames, the
backoff delay of a `setTimeout` armed by `_scheduleReconnect`, and whether
the 1-second Authenticated→Ready settle timer was armed. -/
structure StepOut where
  events : List Event := []
  sends : List SendMsg := []
  backoff : Option ℚ := none
  readyTimer : Bool := false

/-- Mutable state of one `WhatsApp` client instance: the fields of the
`WhatsApp` constructor (lines 237–287) that the verified operations touch,
plus the two fields of its `ProtocolManager` (lines 773–779) —
`messageTagCounter` and the key set of the `callbacks` map — and the
`clientId`/`keys` of its `AuthHandler` (lines 1107–1111).  Timers are
modelled by whether they are armed. -/
structure Client where
  options : Options := {}
  state : ConnectionState := .DISCONNECTED
  session : Option SessionRec := none
  user : Option UserRec := none
  wsOpen : Bool := false
  reconnectCount : Nat := 0
  qrRetryCount : Nat := 0
  reconnectTimer : Bool := false
  qrRefreshTimer : Bool := false
  clientId : Option String := none
  keys : Option Keys := none
  tagCounter : Nat := 0
  pendingTags : List String := []

/-- `AuthHandler.generateKeys` (lines 1116–1129); the fresh randomness
(client id and key pair) is passed in explicitly. -/
def generateKeys (cid : String) (ks : Keys) (c : Client) : Client :=
  { c with clientId := some cid, keys := some ks }

/-- `WhatsApp.connect` (lines 301–342), success path up to the point
where the socket callbacks are installed: a no-op unless `DISCONNECTED`,
otherwise the `CONNECTING` transition, generating keys when no session is
held. -/
def connectStep (cid : String) (ks : Keys) (c : Client) : Client × StepOut :=
  if c.state ≠ .DISCONNECTED then (c, {})
  else
    let c := { c with state := .CONNECTING }
    let c := if c.session.isNone then generateKeys cid ks c else c
    (c, { events := [.stateChange .DISCONNECTED .CONNECTING] })

/-- `ProtocolManager.sendInitialMessage` (lines 1008–1038), the JSON
document it passes to `sendJSON`. -/
def initialMessage (c : Client) : JVal :=
  let base : List (String × JVal) :=
    [ ("clientToken", match c.clientId with
        | some cid => .str cid
        | none => .null),
      ("connectType", .str "WIFI_UNKNOWN"),
      ("connectReason", .str "USER_ACTIVATED"),
      ("userAgent", .obj
        [ ("platform", .str "DESKTOP"),
          ("appVersion", .obj
            [("primary", .num 2), ("secondary", .num 2342), ("tertiary", .num 59)]),
          ("osVersion", .obj
            [("primary", .num 10), ("secondary", .num 0), ("tertiary", .num 0)]) ]),
      ("webInfo", .obj [("webSubPlatform", .str "WEB_BROWSER")]) ]
  match c.session with
  | some s =>
    .obj (base ++
      [ ("passive", .boolean true),
        ("session", match s.serverToken with
          | some t => .str t
          | none => .null) ])
  | none => .obj base

/-- `WhatsApp._onWebSocketOpen` (lines 670–678): transition to
`CONNECTED` (the `from` of the emitted notification is hard-coded to
`CONNECTING` in the source) and send the initialization message. -/
def onWebSocketOpen (c : Client) : Client × StepOut :=
  let c := { c with state := .CONNECTED, wsOpen := true }
  (c, { events := [.stateChange .CONNECTING .CONNECTED, .connectedEv],
        sends := [.jsonMsg (initialMessage c)] })

/-- `WhatsApp._scheduleReconnect` (lines 732–752). -/
def scheduleReconnect (c : Client) : Client × StepOut :=
  if c.options.maxReconnects ≤ c.reconnectCount then
    (c, { events := [.reconnectFailed] })
  else
    let cnt := c.reconnectCount + 1
    let delay := c.options.reconnectDelay * ((3 : ℚ) / 2) ^ (cnt - 1)
    ({ c with reconnectCount := cnt, reconnectTimer := true },
     { backoff := some delay })

/-- `WhatsApp._onWebSocketClose` (lines 703–716). -/
def onWebSocketClose (code : Nat) (c : Client) : Client × StepOut :=
  let prev := c.state
  let c := { c with state := .DISCONNECTED, wsOpen := false }
  let evs := [Event.stateChange prev .DISCONNECTED, Event.disconnectedEv]
  if c.options.autoReconnect ∧ code ≠ 1000 then
    let (c', out) := scheduleReconnect c
    (c', { out with events := evs ++ out.events })
  else
    (c, { events := evs })

/-- `WhatsApp.disconnect` (lines 348–391), translated statement-for-
statement in source order: the early return, the overwrite of
`this.state`, the timer cancellations, the logout guard — which tests
`this.state` only *after* the overwrite — the socket close, and the final
notifications. -/
def disconnect (c : Client) : Client × StepOut :=
  if c.state = .DISCONNECTED then (c, {})
  else
    let prevState := c.state
    let c := { c with state := .DISCONNECTED }
    let c := { c with reconnectTimer := false, qrRefreshTimer := false }
    let logoutSends : List SendMsg :=
      if c.state = .AUTHENTICATED ∨ c.state = .READY then [.logoutMsg] else []
    let c := { c with wsOpen := false }
    (c, { events := [.stateChange prevState .DISCONNECTED, .disconnectedEv],
          sends := logoutSends })

/-! ### Authentication engine -/

/-- The fields `handleAuthSuccess` reads off the handshake-success
message (`data.session`, `data.clientToken`, `data.wid`, `data.pushname`,
`data.phone`); a missing field is `undefined`, hence `Option`. -/
structure AuthData where
  session : Option String := none
  clientToken : Option String := none
  wid : Option String := none
  pushname : Option String := none
  phone : Option String := none
deriving Repr, DecidableEq

/-- Read the `AuthData` fields out of a parsed JSON message. -/
def authDataOf (m : JVal) : AuthData :=
  let fld := fun k =>
    match m.getField k with
    | some (.str s) => some s
    | _ => none
  { session := fld "session", clientToken := fld "clientToken",
    wid := fld "wid", pushname := fld "pushname", phone := fld "phone" }

/-- `AuthHandler.handleAuthSuccess` (lines 1208–1258; the pre-overwrite
state is the `from` of the emitted transition): build the session from the
message plus the held key material, transition to `AUTHENTICATED`, emit
`authenticated`, reset both counters, cancel the QR-expiry timer, and arm
the 1-second settle timer.  `ks` is the handler's `this.keys` (the source
dereferences it unconditionally, so the caller must hold keys). -/
def handleAuthSuccess (d : AuthData) (ks : Keys) (c : Client) : Client × StepOut :=
  let me : UserRec := { id := d.wid, name := d.pushname, phone := d.phone }
  let sess : SessionRec :=
    { clientId := c.clientId, serverToken := d.session,
      clientToken := d.clientToken, encKey := ks.encKey, macKey := ks.macKey,
      me := me }
  let c := { c with session := some sess, user := some me }
  let prevState := c.state
  let c := { c with state := .AUTHENTICATED }
  let c := { c with reconnectCount := 0, qrRetryCount := 0, qrRefreshTimer := false }
  (c, { events := [.stateChange prevState .AUTHENTICATED, .authenticatedEv],
        readyTimer := true })

/-- The body of the 1-second `setTimeout` armed by `handleAuthSuccess`
(lines 1252–1258): transition to `READY` only if the state is still
`AUTHENTICATED` when the timer fires. -/
def settleReadyStep (c : Client) : Client × StepOut :=
  if c.state = .AUTHENTICATED then
    ({ c with state := .READY },
     { events := [.stateChange .AUTHENTICATED .READY, .readyEv] })
  else (c, {})

/-- `ProtocolManager._processJsonMessage` (lines 827–857), the if/else
chain over the parsed document.  The `type === 'success'` branch calls
`handleAuthSuccess`, which needs the handler's keys: `ks` supplies them. -/
def processJsonMessage (m : JVal) (ks : Keys) (c : Client) : Client × StepOut :=
  if m.isStrField "status" "connected" then
    (c, { events := [.connectionSuccess] })
  else if m.isStrField "status" "connecting" then
    (c, { events := [.connectingStatus] })
  else if m.isStrField "status" "timeout" then
    ({ c with state := .TIMEOUT },
     { events := [.stateChange .CONNECTING .TIMEOUT, .connectionTimeout] })
  else if m.isStrField "type" "qr" then
    (c, { events := [.qrCodeReceived (m.getField "ref")] })
  else if m.isStrField "type" "success" then
    handleAuthSuccess (authDataOf m) ks c
  else
    (c, { events := [.unknownMessage] })

/-! ### Short-code (pairing-code) variant
(`PairingCodeAuth` in `src/src/messaging/MessageHandler.ts`,
lines 214–268 of the concatenated file). -/

/-- `phoneNumber.replace(/[^0-9]/g, '')`. -/
def digitsOnly (s : String) : String := ⟨s.data.filter Char.isDigit⟩

/-- The phone formatting of `requestPairingCode` (lines 221–223);
`phoneNumber.includes('@')` is modelled as membership of `'@'` in the
character list. -/
def formatPhone (phone : String) : String :=
  if phone.data.contains '@' then phone else digitsOnly phone ++ "@s.whatsapp.net"

/-- Plain base64 (RFC 4648) of a byte list, modelling
`Buffer.toString('base64')`. -/
def base64Encode (bs : List Nat) : String :=
  let alphabet := "ABCDEFGHIJKLMNOPQRSTUVWXYZabcdefghijklmnopqrstuvwxyz0123456789+/".data
  let ch := fun (i : Nat) => alphabet.getD i '?'
  let rec go : List Nat → List Char
    | b0 :: b1 :: b2 :: rest =>
      let n := (b0 % 256) * 65536 + (b1 % 256) * 256 + (b2 % 256)
      ch (n / 262144) :: ch (n / 4096 % 64) :: ch (n / 64 % 64) :: ch (n % 64) :: go rest
    | [b0, b1] =>
      let n := (b0 % 256) * 65536 + (b1 % 256) * 256
      [ch (n / 262144), ch (n / 4096 % 64), ch (n / 64 % 64), '=']
    | [b0] =>
      let n := (b0 % 256) * 65536
      [ch (n / 262144), ch (n / 4096 % 64), '=', '=']
    | [] => []
  ⟨go bs⟩

/-- The structured request document of `requestPairingCode`
(lines 226–231); `ref` is the fresh 8-byte random reference in upper-case
hex, passed in explicitly as this call's randomness. -/
def pairingMessage (ref : String) (ks : Keys) (phone : String) : JVal :=
  .obj [ ("type", .str "request_pair"), ("ref", .str ref),
         ("publicKey", .str (base64Encode ks.pub)),
         ("phone", .str (formatPhone phone)) ]

/-- `PairingCodeAuth.requestPairingCode` (lines 214–245): emit the
request event, then send exactly one structured request; if the send
throws (socket not open), the catch block emits `pairing_code_error`
with the error object instead.  `ks` is the variant's key material (the
caller generated it when absent, lines 215–217). -/
def requestPairingCode (ref : String) (ks : Keys) (phone : String) (c : Client) :
    Client × StepOut :=
  let fp := formatPhone phone
  if c.wsOpen then
    (c, { events := [.pairingCodeRequest fp],
          sends := [.jsonMsg (pairingMessage ref ks phone)] })
  else
    (c, { events := [.pairingCodeRequest fp, .pairingCodeErrorExn] })

/-- `PairingCodeAuth.handlePairingCodeResponse` (lines 251–268). -/
def handlePairingCodeResponse (m : JVal) (c : Client) : Client × StepOut :=
  if m.isStrField "type" "pair_success" then
    (c, { events := [.pairingCode (m.getField "code")] })
  else if m.isStrField "type" "pair_error" then
    (c, { events := [.pairingCodeError (m.strFieldD "reason" "Unknown error")] })
  else (c, {})

/-! ### Tag generation and the tag-correlation registry
(`ProtocolManager._generateMessageTag`, line 1094–1096, and the
`callbacks` map manipulated by `sendBinary` (965–1002) and
`_processBinaryMessage` (864–899)). -/

/-- The tag string `` `${Date.now()}.--${this.messageTagCounter++}` ``:
the decimal clock value, the separator, the decimal counter value.
`now` is the clock reading at the call. -/
def mkTag (now ctr : Nat) : String :=
  Nat.repr now ++ ".--" ++ Nat.repr ctr

/-- One call of `_generateMessageTag` on a client: returns the tag and
the post-incremented client. -/
def genTag (now : Nat) (c : Client) : String × Client :=
  (mkTag now c.tagCounter, { c with tagCounter := c.tagCounter + 1 })

/-- The client after `k` calls of `_generateMessageTag`, the clock
reading of call `i` being `nows i`. -/
def clientAfterTags (nows : Nat → Nat) (c : Client) : Nat → Client
  | 0 => c
  | k + 1 => (genTag (nows k) (clientAfterTags nows c k)).2

/-- The tag returned by call `k` (0-indexed) of `_generateMessageTag`. -/
def tagAt (nows : Nat → Nat) (c : Client) (k : Nat) : String :=
  (genTag (nows k) (clientAfterTags nows c k)).1

/-- How a pending tagged request was settled: resolved by a matching
reply (`sendBinary` lines 988–991), rejected by its response timeout
(lines 982–985), or rejected by a send error (lines 994–1000). -/
inductive SettleKind where
  | resolvedK
  | timeoutK
  | sendErrK
deriving DecidableEq, Repr

/-- The registry during one connection epoch: the key set of the
`callbacks` map, and the log of effective promise settlements in order.
A promise in JavaScript settles at most once; an entry is removed from
the map on every settling path, so an effective settlement happens
exactly when the settling path finds the tag still registered. -/
structure Registry where
  pending : List String
  settled : List (String × SettleKind)
deriving DecidableEq, Repr

/-- Registry-visible occurrences during an epoch:
* `register t` — `sendBinary` installs the callback for a fresh tag
  (`callbacks.set`, line 988; `Map.set` on a present key replaces the
  value and leaves the key set unchanged);
* `reply t` — an inbound decoded node with tag `t` reaches
  `_processBinaryMessage`: if a callback is registered it is invoked
  (resolving the promise, clearing the timeout) and the entry deleted
  (lines 871–875); otherwise the reply is dropped;
* `timerFire t` — the response timeout for `t` fires: the entry is
  deleted and the promise rejected (lines 982–985); the timer is
  cleared whenever the entry is removed by another path, so it can only
  fire while `t` is registered;
* `sendFail t` — the socket reports a send error: the timeout is
  cleared, the entry deleted and the promise rejected (lines 994–1000);
  if the promise was already settled the rejection is a no-op. -/
inductive RegEvent where
  | register (t : String)
  | reply (t : String)
  | timerFire (t : String)
  | sendFail (t : String)
deriving DecidableEq, Repr

/-- The settling tag of an occurrence (none for a registration). -/
def settlingTag : RegEvent → Option String
  | .register _ => none
  | .reply t => some t
  | .timerFire t => some t
  | .sendFail t => some t

/-- One registry occurrence. -/
def regStep (r : Registry) : RegEvent → Registry
  | .register t =>
    { r with pending := if t ∈ r.pending then r.pending else r.pending ++ [t] }
  | .reply t =>
    if t ∈ r.pending then
      { pending := r.pending.erase t, settled := r.settled ++ [(t, .resolvedK)] }
    else r
  | .timerFire t =>
    if t ∈ r.pending then
      { pending := r.pending.erase t, settled := r.settled ++ [(t, .timeoutK)] }
    else r
  | .sendFail t =>
    if t ∈ r.pending then
      { pending := r.pending.erase t, settled := r.settled ++ [(t, .sendErrK)] }
    else r

/-- Run a sequence of registry occurrences. -/
def regRun (r : Registry) (es : List RegEvent) : Registry := es.foldl regStep r

/-- The number of effective settlements of tag `t` in a registry. -/
def settleCount (r : Registry) (t : String) : Nat :=
  (r.settled.map Prod.fst).count t

/-! ### Decimal-representation facts

The tag format is `<decimal clock>.--<decimal counter>`.  Distinctness of
tags with distinct counters needs that decimal digit strings contain no
dot and that `Nat.repr` is injective. -/

/-- The numeric value of a decimal digit character. -/
def chVal (c : Char) : Nat := c.toNat - 48

/-- The value of a decimal digit string, most significant digit first. -/
def evalDigits (ds : List Char) : Nat := ds.foldl (fun a c => 10 * a + chVal c) 0

theorem digitChar_of_ge (n : Nat) (h : 16 ≤ n) : Nat.digitChar n = '*' := by
  unfold Nat.digitChar
  repeat rw [if_neg (by omega)]

theorem digitChar_ne_dot (n : Nat) : Nat.digitChar n ≠ '.' := by
  rcases Nat.lt_or_ge n 16 with h | h
  · interval_cases n <;> decide
  · rw [digitChar_of_ge n h]; decide

theorem toDigitsCore_ne_dot :
    ∀ (fuel n : Nat) (acc : List Char),
      '.' ∉ acc → '.' ∉ Nat.toDigitsCore 10 fuel n acc := by
  intro fuel
  induction fuel with
  | zero => intro n acc h; simpa [Nat.toDigitsCore] using h
  | succ f ih =>
    intro n acc h
    simp only [Nat.toDigitsCore]
    split
    · intro hmem
      rcases List.mem_cons.mp hmem with heq | hin
      · exact digitChar_ne_dot _ heq.symm
      · exact h hin
    · refine ih _ _ ?_
      intro hmem
      rcases List.mem_cons.mp hmem with heq | hin
      · exact digitChar_ne_dot _ heq.symm
      · exact h hin

theorem repr_ne_dot (n : Nat) : '.' ∉ (Nat.repr n).data := by
  have : (Nat.repr n).data = Nat.toDigitsCore 10 (n + 1) n [] := by
    simp [Nat.repr, Nat.toDigits, List.asString]
  rw [this]
  exact toDigitsCore_ne_dot _ _ _ (by simp)

theorem toDigitsCore_append :
    ∀ (fuel n : Nat) (acc : List Char),
      Nat.toDigitsCore 10 fuel n acc = Nat.toDigitsCore 10 fuel n [] ++ acc := by
  intro fuel
  induction fuel with
  | zero => intro n acc; simp [Nat.toDigitsCore]
  | succ f ih =>
    intro n acc
    simp only [Nat.toDigitsCore]
    split
    · simp
    · rw [ih (n / 10) (Nat.digitChar (n % 10) :: acc),
          ih (n / 10) [Nat.digitChar (n % 10)]]
      simp

theorem chVal_digitChar {k : Nat} (h : k < 10) : chVal (Nat.digitChar k) = k := by
  interval_cases k <;> decide

theorem evalDigits_toDigitsCore (n : Nat) :
    ∀ fuel, n < fuel → evalDigits (Nat.toDigitsCore 10 fuel n []) = n := by
  induction n using Nat.strong_induction_on with
  | _ n ih =>
    intro fuel hf
    match fuel, hf with
    | f + 1, _ =>
      simp only [Nat.toDigitsCore]
      split
      · rename_i hdiv
        simp only [evalDigits, List.foldl]
        rw [chVal_digitChar (by omega : n % 10 < 10)]
        omega
      · rename_i hdiv
        have hn : 0 < n := by
          rcases Nat.eq_zero_or_pos n with h0 | h0
          · exact absurd (by simp [h0]) hdiv
          · exact h0
        have hlt : n / 10 < n := Nat.div_lt_self hn (by norm_num)
        have hfuel : n / 10 < f := by omega
        rw [toDigitsCore_append]
        have := ih (n / 10) hlt f hfuel
        simp only [evalDigits] at *
        rw [List.foldl_append, this]
        simp only [List.foldl]
        rw [chVal_digitChar (by omega : n % 10 < 10)]
        omega

theorem repr_injective : Function.Injective Nat.repr := by
  intro m n h
  have hdata : (Nat.repr m).data = (Nat.repr n).data := by rw [h]
  have hm : (Nat.repr m).data = Nat.toDigitsCore 10 (m + 1) m [] := by
    simp [Nat.repr, Nat.toDigits, List.asString]
  have hn : (Nat.repr n).data = Nat.toDigitsCore 10 (n + 1) n [] := by
    simp [Nat.repr, Nat.toDigits, List.asString]
  have := congrArg evalDigits (hm ▸ hn ▸ hdata)
  rwa [evalDigits_toDigitsCore m (m + 1) (by omega),
       evalDigits_toDigitsCore n (n + 1) (by omega)] at this

theorem append_dot_cancel :
    ∀ (a : List Char) (b a' b' : List Char), '.' ∉ a → '.' ∉ a' →
      a ++ '.' :: b = a' ++ '.' :: b' → a = a' ∧ b = b' := by
  intro a
  induction a with
  | nil =>
    intro b a' b' _ ha' h
    cases a' with
    | nil => simpa using h
    | cons c t =>
      simp only [List.nil_append, List.cons_append, List.cons.injEq] at h
      exact absurd (h.1 ▸ List.mem_cons_self c t) ha'
  | cons c t ih =>
    intro b a' b' ha ha' h
    cases a' with
    | nil =>
      simp only [List.cons_append, List.nil_append, List.cons.injEq] at h
      exact absurd (h.1 ▸ List.mem_cons_self c t) ha
    | cons c' t' =>
      simp only [List.cons_append, List.cons.injEq] at h
      obtain ⟨hc, ht⟩ := h
      have := ih b t' b' (fun hm => ha (List.mem_cons_of_mem c hm))
        (fun hm => ha' (List.mem_cons_of_mem c' hm)) ht
      exact ⟨by rw [hc, this.1], this.2⟩

theorem mkTag_inj {n1 c1 n2 c2 : Nat} (h : mkTag n1 c1 = mkTag n2 c2) :
    n1 = n2 ∧ c1 = c2 := by
  have hdata : (Nat.repr n1).data ++ '.' :: ('-' :: '-' :: (Nat.repr c1).data)
      = (Nat.repr n2).data ++ '.' :: ('-' :: '-' :: (Nat.repr c2).data) := by
    have := congrArg String.data h
    simpa [mkTag, String.data_append, String.instAppend, String.append] using this
  have hcancel := append_dot_cancel _ _ _ _ (repr_ne_dot n1) (repr_ne_dot n2) hdata
  have h1 : Nat.repr n1 = Nat.repr n2 := String.ext hcancel.1
  have h2 : Nat.repr c1 = Nat.repr c2 := by
    have := hcancel.2
    simp only [List.cons.injEq, true_and] at this
    exact String.ext this
  exact ⟨repr_injective h1, repr_injective h2⟩

theorem clientAfterTags_counter (nows : Nat → Nat) (c : Client) :
    ∀ k, (clientAfterTags nows c k).tagCounter = c.tagCounter + k := by
  intro k
  induction k with
  | zero => rfl
  | succ k ih => simp [clientAfterTags, genTag, ih]; omega

theorem tagAt_eq (nows : Nat → Nat) (c : Client) (k : Nat) :
    tagAt nows c k = mkTag (nows k) (c.tagCounter + k) := by
  simp [tagAt, genTag, clientAfterTags_counter]

theorem tagAt_ne (nows : Nat → Nat) (c : Client) {i j : Nat} (h : i ≠ j) :
    tagAt nows c i ≠ tagAt nows c j := by
  intro he
  rw [tagAt_eq, tagAt_eq] at he
  have := (mkTag_inj he).2
  omega

/-! ### Registry invariants -/

theorem regStep_nodup (r : Registry) (e : RegEvent) (h : r.pending.Nodup) :
    (regStep r e).pending.Nodup := by
  cases e with
  | register t =>
    by_cases ht : t ∈ r.pending
    · simpa [regStep, ht] using h
    · simp only [regStep, ht, if_false]
      simpa [List.nodup_append] using ⟨h, ht⟩
  | reply t =>
    by_cases ht : t ∈ r.pending
    · simpa [regStep, ht] using h.erase t
    · simpa [regStep, ht] using h
  | timerFire t =>
    by_cases ht : t ∈ r.pending
    · simpa [regStep, ht] using h.erase t
    · simpa [regStep, ht] using h
  | sendFail t =>
    by_cases ht : t ∈ r.pending
    · simpa [regStep, ht] using h.erase t
    · simpa [regStep, ht] using h

theorem settleCount_append (r : Registry) (t t' : String) (k : SettleKind) :
    settleCount { r with settled := r.settled ++ [(t', k)] } t
      = settleCount r t + (if t' = t then 1 else 0) := by
  simp [settleCount, List.count_append, List.count_cons]

/-- Once a tag is gone from the key set and no registration for it is in
the remaining occurrences, neither its settle count nor its absence ever
changes. -/
theorem regRun_stable :
    ∀ (es : List RegEvent) (r : Registry) (t : String),
      t ∉ r.pending → RegEvent.register t ∉ es →
      settleCount (regRun r es) t = settleCount r t
        ∧ t ∉ (regRun r es).pending := by
  intro es
  induction es with
  | nil => intro r t hnp _; exact ⟨rfl, hnp⟩
  | cons e es ih =>
    intro r t hnp hreg
    have hreg' : RegEvent.register t ∉ es := fun hx => hreg (List.mem_cons_of_mem _ hx)
    have hne : e ≠ RegEvent.register t := fun hx => hreg (hx ▸ List.mem_cons_self _ _)
    have key : settleCount (regStep r e) t = settleCount r t
        ∧ t ∉ (regStep r e).pending := by
      cases e with
      | register t' =>
        have htt : t' ≠ t := fun hx => hne (by rw [hx])
        by_cases hm : t' ∈ r.pending
        · simpa [regStep, hm] using hnp
        · constructor
          · simp [regStep, hm, settleCount]
          · simp only [regStep, hm, if_false]
            intro hx
            rcases List.mem_append.mp hx with hx | hx
            · exact hnp hx
            · simp at hx; exact htt hx.symm
      | reply t' =>
        by_cases hm : t' ∈ r.pending
        · have htt : t' ≠ t := fun hx => hnp (hx ▸ hm)
          constructor
          · simp [regStep, hm, settleCount, List.count_append, List.count_cons, htt]
          · simp only [regStep, hm, if_true]
            intro hx
            exact hnp (List.mem_of_mem_erase hx)
        · simpa [regStep, hm] using hnp
      | timerFire t' =>
        by_cases hm : t' ∈ r.pending
        · have htt : t' ≠ t := fun hx => hnp (hx ▸ hm)
          constructor
          · simp [regStep, hm, settleCount, List.count_append, List.count_cons, htt]
          · simp only [regStep, hm, if_true]
            intro hx
            exact hnp (List.mem_of_mem_erase hx)
        · simpa [regStep, hm] using hnp
      | sendFail t' =>
        by_cases hm : t' ∈ r.pending
        · have htt : t' ≠ t := fun hx => hnp (hx ▸ hm)
          constructor
          · simp [regStep, hm, settleCount, List.count_append, List.count_cons, htt]
          · simp only [regStep, hm, if_true]
            intro hx
            exact hnp (List.mem_of_mem_erase hx)
        · simpa [regStep, hm] using hnp
    have := ih (regStep r e) t key.2 hreg'
    exact ⟨by rw [show regRun r (e :: es) = regRun (regStep r e) es from rfl, this.1, key.1],
           by rw [show regRun r (e :: es) = regRun (regStep r e) es from rfl]; exact this.2⟩

/-- Core correctness of the correlation registry: starting from a state
in which `t` is registered (keys duplicate-free) and not yet settled, and
given that `t` is never re-registered, any sequence of occurrences
settles `t` at most once, and exactly once as soon as it contains a
settling occurrence for `t` (a matching reply, the response timeout, or a
send error). -/
theorem settle_once_run :
    ∀ (es : List RegEvent) (r : Registry) (t : String),
      r.pending.Nodup → settleCount r t = 0 → RegEvent.register t ∉ es →
      settleCount (regRun r es) t ≤ 1
        ∧ (t ∈ r.pending → (∃ e ∈ es, settlingTag e = some t) →
            settleCount (regRun r es) t = 1) := by
  intro es
  induction es with
  | nil =>
    intro r t hnd h0 _
    exact ⟨by simp [regRun, h0], fun _ hx => by simp at hx⟩
  | cons e es ih =>
    intro r t hnd h0 hreg
    have hreg' : RegEvent.register t ∉ es := fun hx => hreg (List.mem_cons_of_mem _ hx)
    have hrun : regRun r (e :: es) = regRun (regStep r e) es := rfl
    by_cases heff : settlingTag e = some t ∧ t ∈ r.pending
    · -- `e` effectively settles `t`: count goes to 1 and `t` leaves the
      -- key set; by stability nothing later changes that.
      obtain ⟨htag, hmem⟩ := heff
      have hstep : settleCount (regStep r e) t = 1
          ∧ t ∉ (regStep r e).pending := by
        cases e with
        | register t' => simp [settlingTag] at htag
        | reply t' =>
          have : t' = t := by simpa [settlingTag] using htag
          subst this
          constructor
          · simp [regStep, hmem, settleCount, List.count_append, List.count_cons, h0]
            simp [settleCount] at h0
            simp [h0]
          · simp only [regStep, hmem, if_true]
            intro hx
            exact ((List.Nodup.mem_erase_iff hnd).mp hx).1 rfl
        | timerFire t' =>
          have : t' = t := by simpa [settlingTag] using htag
          subst this
          constructor
          · simp [regStep, hmem, settleCount, List.count_append, List.count_cons, h0]
            simp [settleCount] at h0
            simp [h0]
          · simp only [regStep, hmem, if_true]
            intro hx
            exact ((List.Nodup.mem_erase_iff hnd).mp hx).1 rfl
        | sendFail t' =>
          have : t' = t := by simpa [settlingTag] using htag
          subst this
          constructor
          · simp [regStep, hmem, settleCount, List.count_append, List.count_cons, h0]
            simp [settleCount] at h0
            simp [h0]
          · simp only [regStep, hmem, if_true]
            intro hx
            exact ((List.Nodup.mem_erase_iff hnd).mp hx).1 rfl
      have hstable := regRun_stable es (regStep r e) t hstep.2 hreg'
      rw [hrun]
      exact ⟨by rw [hstable.1, hstep.1], fun _ _ => by rw [hstable.1, hstep.1]⟩
    · -- `e` does not settle `t`: the step keeps `t`'s count at zero and
      -- preserves its registration; recurse.
      have hstep : settleCount (regStep r e) t = 0
          ∧ (t ∈ r.pending → t ∈ (regStep r e).pending) := by
        cases e with
        | register t' =>
          by_cases hm : t' ∈ r.pending
          · constructor
            · simpa [regStep, hm, settleCount] using h0
            · intro ht; simpa [regStep, hm] using ht
          · constructor
            · simpa [regStep, hm, settleCount] using h0
            · intro ht
              simp only [regStep, hm, if_false]
              exact List.mem_append.mpr (Or.inl ht)
        | reply t' =>
          by_cases hm : t' ∈ r.pending
          · have htt : t' ≠ t := by
              intro hx
              exact heff ⟨by simp [settlingTag, hx], hx ▸ hm⟩
            constructor
            · simp only [regStep, hm, if_true]
              simp [settleCount, List.count_append, List.count_cons, htt]
              simpa [settleCount] using h0
            · intro ht
              simp only [regStep, hm, if_true]
              exact (List.mem_erase_of_ne (fun hx => htt (hx.symm))).mpr ht
          · constructor
            · simpa [regStep, hm] using h0
            · intro ht; simpa [regStep, hm] using ht
        | timerFire t' =>
          by_cases hm : t' ∈ r.pending
          · have htt : t' ≠ t := by
              intro hx
              exact heff ⟨by simp [settlingTag, hx], hx ▸ hm⟩
            constructor
            · simp only [regStep, hm, if_true]
              simp [settleCount, List.count_append, List.count_cons, htt]
              simpa [settleCount] using h0
            · intro ht
              simp only [regStep, hm, if_true]
              exact (List.mem_erase_of_ne (fun hx => htt (hx.symm))).mpr ht
          · constructor
            · simpa [regStep, hm] using h0
            · intro ht; simpa [regStep, hm] using ht
        | sendFail t' =>
          by_cases hm : t' ∈ r.pending
          · have htt : t' ≠ t := by
              intro hx
              exact heff ⟨by simp [settlingTag, hx], hx ▸ hm⟩
            constructor
            · simp only [regStep, hm, if_true]
              simp [settleCount, List.count_append, List.count_cons, htt]
              simpa [settleCount] using h0
            · intro ht
              simp only [regStep, hm, if_true]
              exact (List.mem_erase_of_ne (fun hx => htt (hx.symm))).mpr ht
          · constructor
            · simpa [regStep, hm] using h0
            · intro ht; simpa [regStep, hm] using ht
      have hih := ih (regStep r e) t (regStep_nodup r e hnd) hstep.1 hreg'
      rw [hrun]
      refine ⟨hih.1, fun hmem hex => ?_⟩
      rcases hex with ⟨e', he', htag'⟩
      rcases List.mem_cons.mp he' with rfl | he'
      · exact absurd ⟨htag', hmem⟩ heff
      · exact hih.2 (hstep.2 hmem) ⟨e', he', htag'⟩

/-! ### Concrete inputs used by the claim theorems -/

/-- A fresh client with default options. -/
def freshClient : Client := {}

/-- Key material used by the concrete scenarios. -/
def scenKeys : Keys := { priv := [1], pub := [2] }

/-- The client after `connect()` on a fresh client. -/
def scenAfterConnect : Client := (connectStep "cid0" scenKeys freshClient).1

/-- The client after the transport-open callback. -/
def scenAfterOpen : Client := (onWebSocketOpen scenAfterConnect).1

/-- The inbound structured message `{status:"connected"}`. -/
def connectedStatusMsg : JVal := .obj [("status", .str "connected")]

/-- The step that processes `{status:"connected"}` after transport open. -/
def scenConnectedStep : Client × StepOut :=
  processJsonMessage connectedStatusMsg scenKeys scenAfterOpen

/-- A tagged-binary frame: kind descriptor `WA_PREFIX_BINARY = [6,1,0,0]`. -/
def binaryFrameEx : List Nat := sendBinaryFrame (JVal.obj [("tag", JVal.str "t1")])

/-- A well-formed structured payload. -/
def jsonPayloadEx : JVal := JVal.obj [("status", JVal.str "ok")]

/-- A 5-byte buffer: correct magic, but shorter than the 6-byte frame
header (2-byte magic plus 4-byte kind descriptor). -/
def shortFrameEx : List Nat := [0x57, 0x41, 6, 0, 0]

/-- A client holding one pending tagged request, in the `READY` state,
with the reconnect timer armed. -/
def clientWithPending : Client :=
  { state := .READY, wsOpen := true, reconnectTimer := true,
    pendingTags := ["1700000000000.--0"] }

/-- The inbound reply `{type:"pair_error", reason:"missing"}`. -/
def pairErrorMissing : JVal :=
  .obj [("type", .str "pair_error"), ("reason", .str "missing")]

/-- `JSON.parse` fails on any input starting with a NUL character: NUL
is not JSON whitespace and cannot begin a value. -/
theorem jsonParse_nul_head (cs : List Char) : jsonParse ('\x00' :: cs) = none := by
  have hskip : skipWs ('\x00' :: cs) = '\x00' :: cs := rfl
  have hlen : ('\x00' :: cs).length + 1 = cs.length + 1 + 1 := by simp
  rw [jsonParse, hlen]
  simp only [parseValue, hskip]
  rw [if_neg (by decide), if_neg (by decide), if_neg (by decide), if_neg (by decide),
      if_neg (by decide), if_neg (by decide), if_neg (by decide), if_neg (by decide)]

/-! ### Claim theorems -/

/-- C1 (counterexample).  The claim says that after `connect()`,
transport open, and processing the inbound `{status:"connected"}`
message, the state machine has passed through `Connected` and rests in
`Authenticating`.  In the source the `ConnectionState` enum has no
`AUTHENTICATING` member at all, and the `status === 'connected'` branch
of `_processJsonMessage` only emits a `connection_success` event: on the
claim's own concrete scenario the state after the connected-status step
is still `CONNECTED` — identical to the state before the step — so the
machine does not rest in any state other than `Connected`, contradicting
the claim. -/
theorem claim1_counterexample :
    scenConnectedStep.1.state = ConnectionState.CONNECTED
      ∧ scenConnectedStep.1.state = scenAfterOpen.state := ⟨rfl, rfl⟩

/-- C1 (amended).  After `connect()` the state is `Connecting`; on
transport open it becomes `Connected`; processing the inbound
`{status:"connected"}` message emits only a `connection_success` event
and performs no state transition, leaving the machine in `Connected`
(the implementation has no `Authenticating` state). -/
theorem claim1_amended :
    scenAfterConnect.state = ConnectionState.CONNECTING
      ∧ scenAfterOpen.state = ConnectionState.CONNECTED
      ∧ scenConnectedStep.1.state = ConnectionState.CONNECTED
      ∧ scenConnectedStep.2.events = [Event.connectionSuccess] :=
  ⟨rfl, rfl, rfl, rfl⟩

/-- C2 (code bug).  `processMessage` reads the kind from `buffer[2]`,
which is `6` for *both* kind descriptors (`WA_PREFIX_INFO[0] =
WA_PREFIX_BINARY[0] = 6`), and tests it against `WA_PREFIX_INFO[0]`
first; hence every frame whose descriptor is the tagged-binary kind
`[6,1,0,0]` is sent down the structured/JSON path (where the parse then
fails, because the payload is also sliced from offset 4, leaving the two
trailing descriptor bytes in front), and is never dispatched to the
binary decoder: the `WA_PREFIX_BINARY` branch is unreachable. -/
theorem claim2_code_divergence :
    (∀ (payload : List Nat) (d : Option JVal),
        processMessage (0x57 :: 0x41 :: 6 :: 1 :: 0 :: 0 :: payload)
          ≠ ProcResult.binaryDispatch d)
      ∧ processMessage binaryFrameEx = ProcResult.jsonError := by
  constructor
  · intro payload d h
    have hguard : ¬((0x57 :: 0x41 :: 6 :: 1 :: 0 :: 0 :: payload).length < 4
        ∨ (0x57 :: 0x41 :: 6 :: 1 :: 0 :: 0 :: payload).getD 0 0 ≠ 0x57
        ∨ (0x57 :: 0x41 :: 6 :: 1 :: 0 :: 0 :: payload).getD 1 0 ≠ 0x41) := by
      simp [List.getD]
    rw [processMessage, if_neg hguard] at h
    simp only [List.getD_cons_succ, List.getD_cons_zero, WA_PREFIX_INFO] at h
    rw [if_pos trivial] at h
    split at h <;> exact ProcResult.noConfusion h
  · rfl

/-- C3.  Tag uniqueness and single settlement: (i) any two distinct
calls of `_generateMessageTag` during one epoch return distinct tags
(the post-incremented counter is embedded in the tag after the `".--"`
separator, and decimal digit strings contain no dot); (ii) from a
registry state where tag `t` is registered, unsettled and never
re-registered, any sequence of registry occurrences settles `t`'s
promise at most once — and exactly once as soon as a matching reply, the
response timeout or a send error occurs — the settlement being of one of
those three kinds; (iii) a reply whose tag has no registered callback
leaves the registry unchanged (dropped, not an error). -/
theorem claim3_tag_registry :
    (∀ (nows : Nat → Nat) (c : Client) (i j : Nat), i ≠ j →
        tagAt nows c i ≠ tagAt nows c j)
      ∧ (∀ (es : List RegEvent) (r : Registry) (t : String),
          r.pending.Nodup → settleCount r t = 0 → RegEvent.register t ∉ es →
          settleCount (regRun r es) t ≤ 1
            ∧ (t ∈ r.pending → (∃ e ∈ es, settlingTag e = some t) →
                settleCount (regRun r es) t = 1))
      ∧ (∀ (r : Registry) (t : String), t ∉ r.pending →
          regStep r (.reply t) = r) := by
  refine ⟨fun nows c i j h => tagAt_ne nows c h, settle_once_run, ?_⟩
  intro r t ht
  simp [regStep, ht]

/-- C3 witness: the registry facts instantiated at a concrete epoch —
two generated tags, a one-request registry settled by its reply, and a
dropped unmatched reply. -/
theorem claim3_tag_registry_witness :
    tagAt (fun _ => 0) freshClient 0 ≠ tagAt (fun _ => 0) freshClient 1
      ∧ settleCount (regRun ⟨["a"], []⟩ [.reply "a"]) "a" ≤ 1
      ∧ settleCount (regRun ⟨["a"], []⟩ [.reply "a"]) "a" = 1
      ∧ regStep ⟨[], []⟩ (.reply "z") = ⟨[], []⟩ := by
  refine ⟨claim3_tag_registry.1 (fun _ => 0) freshClient 0 1 (by decide), ?_, ?_,
    claim3_tag_registry.2.2 ⟨[], []⟩ "z" (by simp)⟩
  · exact (claim3_tag_registry.2.1 [.reply "a"] ⟨["a"], []⟩ "a"
      (by simp) rfl (by simp)).1
  · exact (claim3_tag_registry.2.1 [.reply "a"] ⟨["a"], []⟩ "a"
      (by simp) rfl (by simp)).2 (by simp) ⟨.reply "a", by simp, rfl⟩

/-- C4 (counterexample).  The claim says every buffer shorter than the
frame header (2-byte magic + 4-byte descriptor = 6 bytes) yields the
Malformed result.  A 5-byte buffer with intact magic is shorter than the
header, yet `processMessage` does not take the invalid-format path: it
dispatches on the kind byte and the structured branch fails JSON parsing
instead (a caught, logged error — still no exception, but not the
Malformed outcome). -/
theorem claim4_counterexample :
    shortFrameEx.length < 6
      ∧ processMessage shortFrameEx = ProcResult.jsonError
      ∧ processMessage shortFrameEx ≠ ProcResult.malformed := by
  refine ⟨by decide, rfl, ?_⟩
  intro h
  have : ProcResult.jsonError = ProcResult.malformed := by
    rw [show processMessage shortFrameEx = ProcResult.jsonError from rfl] at h
    exact h
  exact ProcResult.noConfusion this

/-- C4 (amended).  `processMessage` returns the malformed outcome (log
and early return) exactly for buffers shorter than **4** bytes or whose
first two bytes are not the magic `0x57 0x41`; every other buffer is
dispatched by kind with parse failures caught, and — the total function
below being the translation of the method — no input makes it raise past
the caller. -/
theorem claim4_amended :
    ∀ bs : List Nat,
      processMessage bs = ProcResult.malformed
        ↔ (bs.length < 4 ∨ bs.getD 0 0 ≠ 0x57 ∨ bs.getD 1 0 ≠ 0x41) := by
  intro bs
  by_cases hc : bs.length < 4 ∨ bs.getD 0 0 ≠ 0x57 ∨ bs.getD 1 0 ≠ 0x41
  · simp only [hc, iff_true]
    rw [processMessage, if_pos hc]
  · simp only [hc, iff_false]
    intro h
    rw [processMessage, if_neg hc] at h
    simp only [] at h
    split at h
    · split at h <;> exact ProcResult.noConfusion h
    · split at h
      · exact ProcResult.noConfusion h
      · exact ProcResult.noConfusion h

/-- C5 (code bug).  The round-trip `decode(encode(structured, p)) =
(structured, p)` fails for every payload: `sendJSON` writes the payload
at offset 6 (after the 2-byte magic and the 4-byte `WA_PREFIX_INFO`),
but `processMessage` slices the payload from offset 4, so the two
trailing descriptor bytes `0x00 0x00` precede the JSON text and
`JSON.parse` throws (caught and logged): the decode result is the
parse-error outcome, never the original payload. -/
theorem claim5_code_divergence :
    (∀ p : JVal, processMessage (sendJSONFrame p) = ProcResult.jsonError)
      ∧ processMessage (sendJSONFrame jsonPayloadEx)
          ≠ ProcResult.jsonDispatch jsonPayloadEx := by
  constructor
  · intro p
    show processMessage ([0x57, 0x41] ++ [6, 0, 0, 0] ++ strToBytes (jsonStringify p))
      = ProcResult.jsonError
    have hre : [0x57, 0x41] ++ [6, 0, 0, 0] ++ strToBytes (jsonStringify p)
        = 0x57 :: 0x41 :: 6 :: 0 :: 0 :: 0 :: strToBytes (jsonStringify p) := by
      simp
    rw [hre]
    have hguard : ¬((0x57 :: 0x41 :: 6 :: 0 :: 0 :: 0 :: strToBytes (jsonStringify p)).length < 4
        ∨ (0x57 :: 0x41 :: 6 :: 0 :: 0 :: 0 :: strToBytes (jsonStringify p)).getD 0 0 ≠ 0x57
        ∨ (0x57 :: 0x41 :: 6 :: 0 :: 0 :: 0 :: strToBytes (jsonStringify p)).getD 1 0 ≠ 0x41) := by
      simp [List.getD]
    rw [processMessage, if_neg hguard]
    simp only [List.getD_cons_succ, List.getD_cons_zero, WA_PREFIX_INFO,
      List.drop_succ_cons, List.drop_zero, if_pos rfl]
    rw [show bytesToChars (0 :: 0 :: strToBytes (jsonStringify p))
          = '\x00' :: bytesToChars (0 :: strToBytes (jsonStringify p)) from rfl,
        jsonParse_nul_head, if_pos trivial]
  · intro h
    have h5 : processMessage (sendJSONFrame jsonPayloadEx) = ProcResult.jsonError := rfl
    rw [h5] at h
    exact ProcResult.noConfusion h

/-- C6 (counterexample).  The claim says that after `disconnect()`
returns, no entry remains in the tag-callback registry.  On a client in
the `READY` state holding one pending tagged request, `disconnect()`
leaves the registry entry in place: the method never touches the
`ProtocolManager.callbacks` map (it only clears the reconnect and
QR-refresh timers), so the pending request is neither rejected nor
removed before the transport is released. -/
theorem claim6_counterexample :
    (disconnect clientWithPending).1.pendingTags = ["1700000000000.--0"]
      ∧ (disconnect clientWithPending).1.pendingTags ≠ [] := by
  refine ⟨rfl, ?_⟩
  intro h
  rw [show (disconnect clientWithPending).1.pendingTags
      = ["1700000000000.--0"] from rfl] at h
  exact List.noConfusion h

/-- C6 (amended).  `disconnect()` cancels the reconnect and QR-refresh
timers before releasing the transport, but it does not reject pending
tagged requests: the tag-callback registry is left exactly as it was, so
each pending request from the old epoch is settled only later, by its
own per-request timeout. -/
theorem claim6_amended :
    ∀ c : Client,
      (disconnect c).1.pendingTags = c.pendingTags
        ∧ (c.state ≠ ConnectionState.DISCONNECTED →
            (disconnect c).1.reconnectTimer = false
              ∧ (disconnect c).1.qrRefreshTimer = false) := by
  intro c
  unfold disconnect
  by_cases h : c.state = ConnectionState.DISCONNECTED
  · rw [if_pos h]
    exact ⟨rfl, fun hc => absurd h hc⟩
  · rw [if_neg h]
    exact ⟨rfl, fun _ => ⟨rfl, rfl⟩⟩

/-- C6 witness: the amended statement evaluated on the concrete client
holding one pending request. -/
theorem claim6_amended_witness :
    (disconnect clientWithPending).1.pendingTags = clientWithPending.pendingTags
      ∧ (disconnect clientWithPending).1.reconnectTimer = false
      ∧ (disconnect clientWithPending).1.qrRefreshTimer = false :=
  ⟨(claim6_amended clientWithPending).1,
   (claim6_amended clientWithPending).2 (by decide)⟩

/-- C7.  The reconnection policy: (i) the attempt counter never exceeds
`maxReconnects`; (ii) the terminal `reconnect_failed` signal is emitted
by `_scheduleReconnect` exactly when the counter has reached the
maximum; (iii) when an attempt is scheduled, the armed delay for attempt
`n = count+1` (1-indexed) is `reconnectDelay * 1.5^(n-1)`; (iv) no
reconnect is scheduled by the close handler when the close code is the
normal `1000` (explicit, caller-initiated close) or `autoReconnect` is
disabled. -/
theorem claim7_reconnect_policy :
    (∀ c : Client, c.reconnectCount ≤ c.options.maxReconnects →
        (scheduleReconnect c).1.reconnectCount ≤ c.options.maxReconnects)
      ∧ (∀ c : Client,
          (scheduleReconnect c).2.events = [Event.reconnectFailed]
            ↔ c.options.maxReconnects ≤ c.reconnectCount)
      ∧ (∀ c : Client, c.reconnectCount < c.options.maxReconnects →
          (scheduleReconnect c).2.backoff
            = some (c.options.reconnectDelay * ((3 : ℚ) / 2) ^ c.reconnectCount))
      ∧ (∀ (c : Client) (code : Nat),
          c.options.autoReconnect = false ∨ code = 1000 →
          (onWebSocketClose code c).2.backoff = none
            ∧ (onWebSocketClose code c).1.reconnectCount = c.reconnectCount) := by
  refine ⟨?_, ?_, ?_, ?_⟩
  · intro c h
    unfold scheduleReconnect
    by_cases hm : c.options.maxReconnects ≤ c.reconnectCount
    · rw [if_pos hm]; exact h
    · rw [if_neg hm]; simp; omega
  · intro c
    unfold scheduleReconnect
    by_cases hm : c.options.maxReconnects ≤ c.reconnectCount
    · rw [if_pos hm]; simpa using hm
    · rw [if_neg hm]; simpa using hm
  · intro c h
    unfold scheduleReconnect
    rw [if_neg (by omega)]
    simp
  · intro c code h
    unfold onWebSocketClose
    have hneg : ¬(c.options.autoReconnect = true ∧ code ≠ 1000) := by
      rcases h with h | h
      · intro hx; rw [h] at hx; exact Bool.false_ne_true hx.1
      · intro hx; exact hx.2 h
    rw [if_neg hneg]
    exact ⟨rfl, rfl⟩

/-- C7 witness: a fresh client with default options (counter 0, maximum
5, base delay 3000 ms, auto-reconnect on) exercising all four parts. -/
theorem claim7_reconnect_policy_witness :
    (scheduleReconnect freshClient).1.reconnectCount
        ≤ freshClient.options.maxReconnects
      ∧ ((scheduleReconnect freshClient).2.events = [Event.reconnectFailed]
          ↔ freshClient.options.maxReconnects ≤ freshClient.reconnectCount)
      ∧ (scheduleReconnect freshClient).2.backoff
          = some (freshClient.options.reconnectDelay * ((3 : ℚ) / 2) ^ freshClient.reconnectCount)
      ∧ (onWebSocketClose 1000 freshClient).2.backoff = none
      ∧ (onWebSocketClose 1000 freshClient).1.reconnectCount
          = freshClient.reconnectCount := by
  refine ⟨claim7_reconnect_policy.1 freshClient (by decide),
    claim7_reconnect_policy.2.1 freshClient,
    claim7_reconnect_policy.2.2.1 freshClient (by decide), ?_, ?_⟩
  · exact (claim7_reconnect_policy.2.2.2 freshClient 1000 (Or.inr rfl)).1
  · exact (claim7_reconnect_policy.2.2.2 freshClient 1000 (Or.inr rfl)).2

/-- C8.  `handleAuthSuccess` on any handshake-success message: the
stored session carries the message's `session` field as `serverToken`,
the message's `clientToken`, the identity fields `wid`/`pushname`/
`phone`, and the locally held key material; the state becomes
`AUTHENTICATED` immediately with the `authenticated` event emitted; both
the reconnect and QR-retry counters are reset to zero; the code-expiry
(QR-refresh) timer is cancelled; the 1-second settle timer is armed; and
when that timer fires the state becomes `READY` with the `ready` event
if and only if the state is still `AUTHENTICATED` at that moment. -/
theorem claim8_auth_success :
    ∀ (d : AuthData) (ks : Keys) (c : Client),
      (handleAuthSuccess d ks c).1.session
          = some { clientId := c.clientId, serverToken := d.session,
                   clientToken := d.clientToken, encKey := ks.encKey,
                   macKey := ks.macKey,
                   me := { id := d.wid, name := d.pushname, phone := d.phone } }
        ∧ (handleAuthSuccess d ks c).1.state = ConnectionState.AUTHENTICATED
        ∧ (handleAuthSuccess d ks c).2.events
            = [Event.stateChange c.state ConnectionState.AUTHENTICATED,
               Event.authenticatedEv]
        ∧ (handleAuthSuccess d ks c).1.reconnectCount = 0
        ∧ (handleAuthSuccess d ks c).1.qrRetryCount = 0
        ∧ (handleAuthSuccess d ks c).1.qrRefreshTimer = false
        ∧ (handleAuthSuccess d ks c).2.readyTimer = true
        ∧ (∀ c2 : Client,
            ((settleReadyStep c2).1.state = ConnectionState.READY
              ∧ (settleReadyStep c2).2.events
                  = [Event.stateChange ConnectionState.AUTHENTICATED ConnectionState.READY,
                     Event.readyEv])
            ↔ c2.state = ConnectionState.AUTHENTICATED) := by
  intro d ks c
  refine ⟨rfl, rfl, rfl, rfl, rfl, rfl, rfl, ?_⟩
  intro c2
  constructor
  · intro h
    by_contra hne
    have : (settleReadyStep c2).2.events = [] := by
      unfold settleReadyStep
      rw [if_neg hne]
    rw [this] at h
    exact List.noConfusion h.2
  · intro h
    unfold settleReadyStep
    rw [if_pos h]
    exact ⟨rfl, rfl⟩

/-- C9.  The short-code variant: one call of `requestPairingCode` on an
open socket sends exactly one structured request, whose `phone` field is
the formatted phone and whose `ref` field is the freshly generated
reference of this call, and changes no client state; on the concrete
scenario phone the formatted value contains the phone digits; the
inbound reply `{type:"pair_error", reason:"missing"}` produces exactly
one `pairing_code_error` event with reason `"missing"`, sends nothing
(no automatic retry), and changes no client state. -/
theorem claim9_pairing_code :
    (∀ (ref : String) (ks : Keys) (phone : String) (c : Client),
        c.wsOpen = true →
        (requestPairingCode ref ks phone c).2.sends
            = [SendMsg.jsonMsg (pairingMessage ref ks phone)]
          ∧ (pairingMessage ref ks phone).getField "phone"
              = some (.str (formatPhone phone))
          ∧ (pairingMessage ref ks phone).getField "ref" = some (.str ref)
          ∧ (requestPairingCode ref ks phone c).1 = c)
      ∧ formatPhone "40712345678" = "40712345678@s.whatsapp.net"
      ∧ (∀ c : Client,
          (handlePairingCodeResponse pairErrorMissing c).2.events
              = [Event.pairingCodeError "missing"]
            ∧ (handlePairingCodeResponse pairErrorMissing c).2.sends = []
            ∧ (handlePairingCodeResponse pairErrorMissing c).1 = c) := by
  refine ⟨?_, rfl, ?_⟩
  · intro ref ks phone c h
    unfold requestPairingCode
    rw [if_pos h]
    exact ⟨rfl, rfl, rfl, rfl⟩
  · intro c
    exact ⟨rfl, rfl, rfl⟩

/-- C9 witness: a concrete call on an open socket with the scenario
phone `"40712345678"` and a concrete fresh reference. -/
theorem claim9_pairing_code_witness :
    (requestPairingCode "A1B2C3D4" scenKeys "40712345678" clientWithPending).2.sends
        = [SendMsg.jsonMsg (pairingMessage "A1B2C3D4" scenKeys "40712345678")]
      ∧ (pairingMessage "A1B2C3D4" scenKeys "40712345678").getField "phone"
          = some (.str (formatPhone "40712345678"))
      ∧ (pairingMessage "A1B2C3D4" scenKeys "40712345678").getField "ref"
          = some (.str "A1B2C3D4") := by
  have h := claim9_pairing_code.1 "A1B2C3D4" scenKeys "40712345678"
    clientWithPending (by decide)
  exact ⟨h.1, h.2.1, h.2.2.1⟩

/-- C10.  `disconnect()` never sends the logout message, whatever the
prior state: the method overwrites `this.state` with `DISCONNECTED`
before testing whether it is `AUTHENTICATED` or `READY`, so the guard of
the `sendLogout()` call is always false and the logout send is
unreachable — the step's outbound frame list is empty for every client. -/
theorem claim10_logout_unreachable :
    ∀ c : Client, (disconnect c).2.sends = [] := by
  intro c
  unfold disconnect
  by_cases h : c.state = ConnectionState.DISCONNECTED
  · rw [if_pos h]
  · rw [if_neg h]
    rfl

end WaCore
